import Mathlib

/-!
Verification development for the grasp capture server
(src/server/grasp_server.py).

The text-processing parts of the code (Python `str.split`,
`re.split`, the sed substitution pipeline) are embedded as
functions on `List Char`.  The capture pipeline's effects are
embedded as explicit state passing over a functional filesystem
`FS : List String → Option (List Char)` mapping a path (as a list
of components) to the content of the file stored there, if any.
External effects (the renderer, the pandoc/sed processes, write
success) are supplied as parameters and oracle fields, so that
the control flow of `capture` is modelled exactly while the
environment stays arbitrary.
-/

/-- Python's `if s is None: return '' else: return s`
(the local `safe` helper inside `capture`, lines 71-75). -/
def safe (s : Option String) : String :=
  match s with
  | none => ""
  | some t => t

/-- The ASCII whitespace characters matched by Python's regex class
`\s` (and stripped by `str.strip`). -/
def pyIsSpace (c : Char) : Bool :=
  c = ' ' || c = '\t' || c = '\n' || c = '\r' || c = '\x0b' || c = '\x0c'

/-- A character matched by the regex class `[\s,]` used at line 92. -/
def pySepChar (c : Char) : Bool :=
  pyIsSpace c || c = ','

/-- Python's split on single separator characters, keeping empty
tokens, as performed by both `str.split(".")` (line 87) and
`re.split(r'[\s,]', ...)` (line 92).  On the empty string it
returns `[[]]`, exactly as Python returns `['']`. -/
def pySplit (isSep : Char → Bool) : List Char → List (List Char)
  | [] => [[]]
  | c :: cs =>
    if isSep c then [] :: pySplit isSep cs
    else
      match pySplit isSep cs with
      | [] => [[c]]
      | t :: ts => (c :: t) :: ts

/-- Modelled from the spec: `org_tools.empty` (imported at line 12 but
not under src/); per §4.1 it tests whether a string is absent, empty
or whitespace-only; on an already-`safe`d string this is
"empty or whitespace-only". -/
def emptyStr (l : List Char) : Bool :=
  l.all pyIsSpace

/-- Tag extraction, lines 90-93: `tags = []`; if `not empty(tag_str)`
then `tags = re.split(r'[\s,]', tag_str)` filtered by
`not empty(t)`. -/
def tagsOf (tag_str : List Char) : List (List Char) :=
  if emptyStr tag_str then []
  else (pySplit pySepChar tag_str).filter (fun t => !(emptyStr t))

/-- Line 87: `obsidian_filename = comment.split(".")[0] + '.md'`. -/
def obsFilename (comment : List Char) : List Char :=
  (pySplit (fun c => c = '.') comment).headD [] ++ ".md".toList

/-- The spec's description of tag extraction (§4.1): split on runs of
whitespace or comma characters, discarding empty tokens; used to
compare against the source-derived `tagsOf`. -/
def runsSplit : List Char → List (List Char)
  | [] => []
  | c :: cs =>
    if pySepChar c then runsSplit cs
    else (c :: cs.takeWhile (fun d => !pySepChar d))
         :: runsSplit (cs.dropWhile (fun d => !pySepChar d))
termination_by l => l.length
decreasing_by
  · simp
  · have key : ∀ (q : Char → Bool) (m : List Char), (m.dropWhile q).length ≤ m.length := by
      intro q m
      induction m with
      | nil => simp
      | cons a k ih =>
        by_cases h : q a
        · simp [List.dropWhile_cons, h]
          omega
        · simp [List.dropWhile_cons, h]
    simp only [List.length_cons]
    exact Nat.lt_succ_of_le (key _ _)

/-- First sed command at line 42: `s/\\\[/\[/g`, a global
left-to-right non-overlapping replacement of the two-character
sequence backslash-bracket by the bracket. -/
def sub1 : List Char → List Char
  | [] => []
  | [c] => [c]
  | c :: d :: rest =>
    if c = '\\' ∧ d = '[' then '[' :: sub1 rest else c :: sub1 (d :: rest)

/-- Second sed command at line 42: `s/\\\]/\]/g`. -/
def sub2 : List Char → List Char
  | [] => []
  | [c] => [c]
  | c :: d :: rest =>
    if c = '\\' ∧ d = ']' then ']' :: sub2 rest else c :: sub2 (d :: rest)

/-- The literal marker token `#org2mdissues#` removed by the third
sed command. -/
def issuesTok : List Char :=
  ['#', 'o', 'r', 'g', '2', 'm', 'd', 'i', 's', 's', 'u', 'e', 's', '#']

/-- Third sed command at line 42: `s/#org2mdissues#//g`, a global
left-to-right non-overlapping removal of the marker token. -/
def sub3 (l : List Char) : List Char :=
  match l with
  | [] => []
  | c :: rest =>
    if issuesTok.isPrefixOf (c :: rest) then sub3 ((c :: rest).drop issuesTok.length)
    else c :: sub3 rest
termination_by l.length
decreasing_by
  · simp [issuesTok]
    omega
  · simp

/-- The complete text-substitution filter of line 42: the three sed
substitutions applied in sequence over the stream. -/
def sedFilter (l : List Char) : List Char :=
  sub3 (sub2 (sub1 l))

/-- The spec's description of the Vault Converter filter (§4.3 item 3):
a single pass that un-escapes `\[` and `\]` and removes every
occurrence of the literal token `#org2mdissues#`, leaving all other
text unchanged; used to compare against the source-derived
`sedFilter`. -/
def specFilter (l : List Char) : List Char :=
  match l with
  | [] => []
  | [c] => [c]
  | c :: d :: rest =>
    if c = '\\' ∧ d = '[' then '[' :: specFilter rest
    else if c = '\\' ∧ d = ']' then ']' :: specFilter rest
    else if issuesTok.isPrefixOf (c :: d :: rest) then
      specFilter ((c :: d :: rest).drop issuesTok.length)
    else c :: specFilter (d :: rest)
termination_by l.length
decreasing_by
  · simp
    omega
  · simp
    omega
  · simp [issuesTok]
    omega
  · simp

/-- The errors the pipeline can raise, one constructor per Python
exception source: `IOError` from writes/opens, `OSError` from
`mkdir`, `FileNotFoundError` from `Popen`/`run` on a missing
executable, `FileNotFoundError` from `unlink` on a missing file,
`TypeError` from calling `capture(**payload)` with a missing key,
and whatever `as_org` raises. -/
inductive Err where
  | ioError
  | filesystemError
  | processError
  | unlinkMissing
  | typeError
  | renderError
deriving DecidableEq

/-- A filesystem: maps a path (list of components) to the content of
the file there, if one exists.  Directories are left implicit. -/
abbrev FS : Type := List String → Option (List Char)

/-- Point update of a filesystem. -/
def fsUpdate (fs : FS) (p : List String) (v : Option (List Char)) : FS :=
  fun q => if q = p then v else fs q

/-- Outcomes of the external effects one capture performs, supplied
as an oracle: whether the staging write succeeds, whether `mkdir`
succeeds, whether the pandoc process can be launched, pandoc's exit
status and the text it produced on stdout before exiting, whether
the sed process can be launched, and whether the vault file can be
opened for writing. -/
structure Oracle where
  writeOk : Bool
  mkdirOk : Bool
  pandocLaunchOk : Bool
  pandocExitCode : Nat
  pandocOut : List Char
  sedLaunchOk : Bool
  openVaultOk : Bool
deriving DecidableEq

/-- The JSON object built at lines 111-114:
`{'path': str(capture_path), 'status': 'ok'}`. -/
structure CaptureResponse where
  path : List String
  status : String
deriving DecidableEq

/-- A pipeline step's result: the filesystem afterwards, and the
exception it raised, if any (the raised case keeps the state the
step had already produced, since Python does not roll back). -/
abbrev StepRes : Type := FS × Option Err

/-- Model of `write_org` (lines 24-36): the two warnings are logging only; the
file is opened with mode `w` and the rendered text written whole.
`writeOk` models whether the open/write succeeds. -/
def write_org (fs : FS) (path : List String) (org : List Char) (writeOk : Bool) : StepRes :=
  if writeOk then (fsUpdate fs path (some org), none)
  else (fs, some Err.ioError)

/-- Model of `move_to_obsidian_vault` (lines 38-42): `mkdir(parents=True,
exist_ok=True)`, then `Popen` of pandoc, then `md_path.open('w')`
(which creates/truncates the vault file), then `subprocess.run` of
sed with stdout redirected into that file.  Neither process's exit
status is examined; pandoc's stdout (possibly partial or empty) is
what sed filters and writes. -/
def move_to_obsidian_vault (fs : FS) (mdPath : List String) (o : Oracle) : StepRes :=
  if !o.mkdirOk then (fs, some Err.filesystemError)
  else if !o.pandocLaunchOk then (fs, some Err.processError)
  else if !o.openVaultOk then (fs, some Err.ioError)
  else
    let fs1 := fsUpdate fs mdPath (some [])
    if !o.sedLaunchOk then (fs1, some Err.processError)
    else (fsUpdate fs1 mdPath (some (sedFilter o.pandocOut)), none)

/-- Model of `remove_org` (lines 44-45): `path.unlink()`, which raises
`FileNotFoundError` when no file exists at the path. -/
def remove_org (fs : FS) (path : List String) : StepRes :=
  match fs path with
  | none => (fs, some Err.unlinkMissing)
  | some _ => (fsUpdate fs path none, none)

/-- Lines 87-88: the vault file path
`Path(os.environ[OBSIDIAN_PATH_VAR]) / obsidian_filename`, the vault
directory joined with the filename derived from the comment. -/
def mdPathOf (vaultPath : List String) (comment : String) : List String :=
  vaultPath ++ [String.mk (obsFilename comment.toList)]

/-- Model of `capture` (lines 62-115).  `render` stands for the external
collaborator `org_tools.as_org` (its arguments are the sanitized
fields, the tag list, the template and the optional config, and it
may raise); `capturePath`/`vaultPath` are the expanded values of the
two path environment variables.  Returns the filesystem afterwards,
the exception raised if any, and the response on success. -/
def capture {Cfg : Type}
    (url title selection comment tag_str : Option String)
    (capturePath vaultPath : List String) (template : String)
    (config : Option Cfg)
    (render : String → String → String → String → List (List Char) → String → Option Cfg → Except Err (List Char))
    (o : Oracle) (fs : FS) : FS × Option Err × Option CaptureResponse :=
  let url' := safe url
  let title' := safe title
  let selection' := safe selection
  let comment' := safe comment
  let tagStr' := safe tag_str
  let mdPath := mdPathOf vaultPath comment'
  let tags := tagsOf tagStr'.toList
  match render url' title' selection' comment' tags template config with
  | Except.error e => (fs, some e, none)
  | Except.ok org =>
    match write_org fs capturePath org o.writeOk with
    | (fs1, some e) => (fs1, some e, none)
    | (fs1, none) =>
      match move_to_obsidian_vault fs1 mdPath o with
      | (fs2, some e) => (fs2, some e, none)
      | (fs2, none) =>
        match remove_org fs2 capturePath with
        | (fs3, some e) => (fs3, some e, none)
        | (fs3, none) => (fs3, none, some ⟨capturePath, "ok"⟩)

/-- The decoded JSON body handed to `capture(**payload)` at line 126:
for each of the five parameters of `capture`, the outer `Option` is
whether the key is present in the payload, the inner one whether its
value is `null`. -/
structure Payload where
  url : Option (Option String)
  title : Option (Option String)
  selection : Option (Option String)
  comment : Option (Option String)
  tag_str : Option (Option String)

/-- Model of the call `capture(**payload)` in `handle_POST` (line 126): if any of
the five parameters has no matching key, Python raises `TypeError`
before `capture`'s body runs; `do_POST` turns any exception into a
500 response. -/
def callCapture {Cfg : Type} (p : Payload)
    (capturePath vaultPath : List String) (template : String)
    (config : Option Cfg)
    (render : String → String → String → String → List (List Char) → String → Option Cfg → Except Err (List Char))
    (o : Oracle) (fs : FS) : FS × Option Err × Option CaptureResponse :=
  match p.url, p.title, p.selection, p.comment, p.tag_str with
  | some u, some t, some s, some c, some g =>
      capture u t s c g capturePath vaultPath template config render o fs
  | _, _, _, _, _ => (fs, some Err.typeError, none)

/-- The memo cell `functools.lru_cache(1)` installs on
`capture_config` (line 50): `none` before the first call, and the
first call's result afterwards. -/
structure CacheState (Cfg : Type) where
  cached : Option (Option Cfg)

/-- Model of `capture_config` (lines 50-59) under `@lru_cache(1)`: `load`
stands for the body (reading the env var and executing the config
file); a cached value short-circuits it. -/
def capture_config {Cfg : Type} (load : Unit → Option Cfg) (s : CacheState Cfg) :
    Option Cfg × CacheState Cfg :=
  match s.cached with
  | some v => (v, s)
  | none => (load (), ⟨some (load ())⟩)

/-- A path lies strictly inside the vault directory. -/
def underVault (vaultPath p : List String) : Prop :=
  vaultPath <+: p ∧ p ≠ vaultPath

/-!
Helper lemmas about the split functions.
-/

theorem pySplit_ne_nil (p : Char → Bool) (l : List Char) : pySplit p l ≠ [] := by
  cases l with
  | nil => simp [pySplit]
  | cons c cs =>
    by_cases h : p c
    · simp [pySplit, h]
    · simp only [pySplit, h]
      cases hs : pySplit p cs <;> simp

theorem pySplit_headD (p : Char → Bool) (l : List Char) :
    (pySplit p l).headD [] = l.takeWhile (fun c => !p c) := by
  induction l with
  | nil => simp [pySplit]
  | cons c cs ih =>
    by_cases h : p c
    · simp [pySplit, List.takeWhile_cons, h]
    · cases hs : pySplit p cs with
      | nil => exact absurd hs (pySplit_ne_nil p cs)
      | cons t ts =>
        rw [hs] at ih
        simp only [pySplit, h, if_false, hs, List.headD_cons, List.takeWhile_cons]
        simp only [List.headD_cons] at ih
        simp [h, ih]

/-- C3: for every comment, the derived output filename is the text of
the comment before its first '.' character with ".md" appended;
`obsFilename "notes.v1" = "notes.md"`, and for the empty comment the
filename is exactly ".md". -/
theorem claim3_output_filename :
    (∀ comment : List Char,
        obsFilename comment = comment.takeWhile (fun c => !(c = '.' : Bool)) ++ ".md".toList)
    ∧ obsFilename "notes.v1".toList = "notes.md".toList
    ∧ obsFilename "".toList = ".md".toList := by
  refine ⟨?_, by rfl, by rfl⟩
  intro comment
  unfold obsFilename
  rw [pySplit_headD]

theorem pySplit_filter_runs (l : List Char) :
    ((pySplit pySepChar l).filter (fun t => !t.isEmpty) = runsSplit l)
    ∧ ((pySplit pySepChar l).tail.filter (fun t => !t.isEmpty)
        = runsSplit (l.dropWhile (fun d => !pySepChar d))) := by
  induction l with
  | nil => constructor <;> simp [pySplit, runsSplit]
  | cons c cs ih =>
    obtain ⟨ihA, ihT⟩ := ih
    by_cases h : pySepChar c
    · constructor
      · simp only [pySplit, h, if_true, List.filter_cons, List.isEmpty_nil]
        simp only [runsSplit, h, if_true]
        simpa using ihA
      · simp only [pySplit, h, if_true, List.tail_cons, List.dropWhile_cons, h,
          Bool.not_true, Bool.false_eq_true, if_false]
        simp only [runsSplit, h, if_true]
        exact ihA
    · cases hs : pySplit pySepChar cs with
      | nil => exact absurd hs (pySplit_ne_nil _ cs)
      | cons t ts =>
        have ht : t = cs.takeWhile (fun d => !pySepChar d) := by
          have hh := pySplit_headD pySepChar cs
          rw [hs] at hh
          simpa using hh
        rw [hs] at ihT
        simp only [List.tail_cons] at ihT
        constructor
        · simp only [pySplit, h, if_false, hs, Bool.false_eq_true]
          simp only [runsSplit, h, if_false, Bool.false_eq_true]
          simp only [List.filter_cons]
          simp only [List.isEmpty_cons, Bool.not_false]
          rw [ht]
          simp [ihT]
        · simp only [pySplit, h, if_false, hs, List.tail_cons, Bool.false_eq_true]
          simp only [List.dropWhile_cons, h]
          simp only [Bool.not_false, if_true, Bool.false_eq_true]
          exact ihT

theorem pySplit_no_sep (p : Char → Bool) (l : List Char) :
    ∀ t ∈ pySplit p l, ∀ c ∈ t, p c = false := by
  induction l with
  | nil =>
    intro t ht c hc
    simp [pySplit] at ht
    subst ht
    simp at hc
  | cons a cs ih =>
    by_cases h : p a
    · intro t ht c hc
      simp only [pySplit, h, if_true] at ht
      rcases List.mem_cons.mp ht with rfl | ht'
      · simp at hc
      · exact ih t ht' c hc
    · cases hs : pySplit p cs with
      | nil => exact absurd hs (pySplit_ne_nil _ cs)
      | cons t0 ts =>
        intro t ht c hc
        simp only [pySplit, h, if_false, hs, Bool.false_eq_true] at ht
        rcases List.mem_cons.mp ht with rfl | ht'
        · rcases List.mem_cons.mp hc with rfl | hc'
          · simpa using h
          · exact ih t0 (hs ▸ List.mem_cons_self t0 ts) c hc'
        · exact ih t (hs ▸ List.mem_cons_of_mem t0 ht') c hc

theorem emptyStr_eq_isEmpty_of_no_sep (t : List Char)
    (h : ∀ c ∈ t, pySepChar c = false) : emptyStr t = t.isEmpty := by
  cases t with
  | nil => rfl
  | cons c t' =>
    have hc := h c (List.mem_cons_self c t')
    have hsp : pyIsSpace c = false := by
      by_contra hx
      rw [Bool.not_eq_false] at hx
      simp [pySepChar, hx] at hc
    simp [emptyStr, hsp]

theorem runsSplit_ws (l : List Char) (h : emptyStr l = true) : runsSplit l = [] := by
  induction l with
  | nil => simp [runsSplit]
  | cons c cs ih =>
    simp only [emptyStr, List.all_cons, Bool.and_eq_true] at h
    have hsep : pySepChar c = true := by simp [pySepChar, h.1]
    simp only [runsSplit, hsep, if_true]
    exact ih h.2

theorem tagsOf_eq_runsSplit (l : List Char) : tagsOf l = runsSplit l := by
  unfold tagsOf
  by_cases h : emptyStr l = true
  · simp [h, runsSplit_ws l h]
  · rw [if_neg h]
    have hcong : (pySplit pySepChar l).filter (fun t => !(emptyStr t))
        = (pySplit pySepChar l).filter (fun t => !t.isEmpty) :=
      List.filter_congr (fun t ht => by
        rw [emptyStr_eq_isEmpty_of_no_sep t (pySplit_no_sep pySepChar l t ht)])
    rw [hcong]
    exact (pySplit_filter_runs l).1

/-- C4: the tag list always equals the tag string split on runs of
whitespace or comma characters with empty tokens discarded (so the
empty and whitespace-only cases give `[]`, order and duplicates are
preserved), it never contains an empty tag, and
`"a, ,b  c"` yields `["a","b","c"]`. -/
theorem claim4_tags :
    (∀ l : List Char, tagsOf l = runsSplit l)
    ∧ (∀ (l t : List Char), t ∈ tagsOf l → t ≠ [])
    ∧ tagsOf "a, ,b  c".toList = ["a".toList, "b".toList, "c".toList] := by
  refine ⟨tagsOf_eq_runsSplit, ?_, by decide⟩
  intro l t ht
  unfold tagsOf at ht
  by_cases h : emptyStr l = true
  · rw [if_pos h] at ht
    simp at ht
  · rw [if_neg h] at ht
    have := (List.mem_filter.mp ht).2
    intro hnil
    subst hnil
    simp [emptyStr] at this

/-- Witness for C4's membership hypothesis: the token "a" is in the
tag list of "a, ,b  c" and is nonempty. -/
theorem claim4_tags_witness :
    "a".toList ∈ tagsOf "a, ,b  c".toList ∧ "a".toList ≠ [] :=
  ⟨by decide, claim4_tags.2.1 "a, ,b  c".toList "a".toList (by decide)⟩

/-!
Helper lemmas about the three sed substitutions.
-/

theorem sub1_cons_safe (c : Char) (x : List Char)
    (h : c ≠ '\\' ∨ x.head? ≠ some '[') : sub1 (c :: x) = c :: sub1 x := by
  cases x with
  | nil => simp [sub1]
  | cons d y =>
    simp only [sub1]
    rw [if_neg]
    rintro ⟨rfl, rfl⟩
    rcases h with h | h
    · exact h rfl
    · simp at h

theorem sub2_cons_safe (c : Char) (x : List Char)
    (h : c ≠ '\\' ∨ x.head? ≠ some ']') : sub2 (c :: x) = c :: sub2 x := by
  cases x with
  | nil => simp [sub2]
  | cons d y =>
    simp only [sub2]
    rw [if_neg]
    rintro ⟨rfl, rfl⟩
    rcases h with h | h
    · exact h rfl
    · simp at h

theorem sub1_head (x : List Char) :
    (sub1 x).head? = x.head? ∨ (sub1 x).head? = some '[' := by
  cases x with
  | nil => left; rfl
  | cons c y =>
    cases y with
    | nil => left; simp [sub1]
    | cons d z =>
      by_cases h : c = '\\' ∧ d = '['
      · right; simp [sub1, h]
      · left; simp [sub1, h]

theorem sub1_append (t z : List Char) (h : ∀ a ∈ t, a ≠ '\\') :
    sub1 (t ++ z) = t ++ sub1 z := by
  induction t with
  | nil => simp
  | cons a t' ih =>
    rw [List.cons_append,
      sub1_cons_safe a (t' ++ z) (Or.inl (h a (List.mem_cons_self a t'))),
      ih (fun b hb => h b (List.mem_cons_of_mem a hb)), List.cons_append]

theorem sub2_append (t z : List Char) (h : ∀ a ∈ t, a ≠ '\\') :
    sub2 (t ++ z) = t ++ sub2 z := by
  induction t with
  | nil => simp
  | cons a t' ih =>
    rw [List.cons_append,
      sub2_cons_safe a (t' ++ z) (Or.inl (h a (List.mem_cons_self a t'))),
      ih (fun b hb => h b (List.mem_cons_of_mem a hb)), List.cons_append]

theorem sub3_eq_cons (c : Char) (rest : List Char) :
    sub3 (c :: rest)
      = if issuesTok.isPrefixOf (c :: rest) then sub3 ((c :: rest).drop issuesTok.length)
        else c :: sub3 rest := by
  simp only [sub3]

theorem sub3_cons_safe (c : Char) (x : List Char)
    (h : issuesTok.isPrefixOf (c :: x) = false) : sub3 (c :: x) = c :: sub3 x := by
  rw [sub3_eq_cons, if_neg (by simp [h])]

theorem sub3_tok (z : List Char) : sub3 (issuesTok ++ z) = sub3 z := by
  have h1 : issuesTok.isPrefixOf (issuesTok ++ z) = true :=
    List.isPrefixOf_iff_prefix.mpr (List.prefix_append _ _)
  have h2 : (issuesTok ++ z).drop issuesTok.length = z := List.drop_left _ _
  rcases e : issuesTok ++ z with _ | ⟨c, rest⟩
  · simp [issuesTok] at e
  · rw [sub3_eq_cons, ← e, if_pos h1, h2]

theorem tok_not_prefix_of_ne (c : Char) (xs : List Char) (h : c ≠ '#') :
    issuesTok.isPrefixOf (c :: xs) = false := by
  have hb : ('#' == c) = false := beq_eq_false_iff_ne.mpr (Ne.symm h)
  simp [issuesTok, List.isPrefixOf, hb]

theorem tok_prefix_hash (w : List Char) :
    issuesTok.isPrefixOf ('#' :: w) = issuesTok.tail.isPrefixOf w := by
  simp [issuesTok, List.isPrefixOf]

theorem sub1_prefix_reflect (x : List Char) :
    ∀ t : List Char, (∀ a ∈ t, a ≠ '\\' ∧ a ≠ '[') →
      t.isPrefixOf (sub1 x) = true → t.isPrefixOf x = true := by
  induction x using sub1.induct with
  | case1 =>
    intro t ht hp
    cases t with
    | nil => simp
    | cons a t' => simp [sub1, List.isPrefixOf] at hp
  | case2 c =>
    intro t ht hp
    simpa [sub1] using hp
  | case3 c d rest hcond ih =>
    obtain ⟨rfl, rfl⟩ := hcond
    intro t ht hp
    cases t with
    | nil => simp
    | cons a t' =>
      rw [show sub1 ('\\' :: '[' :: rest) = '[' :: sub1 rest by simp [sub1]] at hp
      simp only [List.isPrefixOf, Bool.and_eq_true, beq_iff_eq] at hp
      exact absurd hp.1 (ht a (List.mem_cons_self a t')).2
  | case4 c d rest hcond ih =>
    intro t ht hp
    rw [show sub1 (c :: d :: rest) = c :: sub1 (d :: rest) by simp [sub1, hcond]] at hp
    cases t with
    | nil => simp
    | cons a t' =>
      simp only [List.isPrefixOf, Bool.and_eq_true] at hp ⊢
      exact ⟨hp.1, ih t' (fun b hb => ht b (List.mem_cons_of_mem a hb)) hp.2⟩

theorem sub2_prefix_reflect (x : List Char) :
    ∀ t : List Char, (∀ a ∈ t, a ≠ '\\' ∧ a ≠ ']') →
      t.isPrefixOf (sub2 x) = true → t.isPrefixOf x = true := by
  induction x using sub2.induct with
  | case1 =>
    intro t ht hp
    cases t with
    | nil => simp
    | cons a t' => simp [sub2, List.isPrefixOf] at hp
  | case2 c =>
    intro t ht hp
    simpa [sub2] using hp
  | case3 c d rest hcond ih =>
    obtain ⟨rfl, rfl⟩ := hcond
    intro t ht hp
    cases t with
    | nil => simp
    | cons a t' =>
      rw [show sub2 ('\\' :: ']' :: rest) = ']' :: sub2 rest by simp [sub2]] at hp
      simp only [List.isPrefixOf, Bool.and_eq_true, beq_iff_eq] at hp
      exact absurd hp.1 (ht a (List.mem_cons_self a t')).2
  | case4 c d rest hcond ih =>
    intro t ht hp
    rw [show sub2 (c :: d :: rest) = c :: sub2 (d :: rest) by simp [sub2, hcond]] at hp
    cases t with
    | nil => simp
    | cons a t' =>
      simp only [List.isPrefixOf, Bool.and_eq_true] at hp ⊢
      exact ⟨hp.1, ih t' (fun b hb => ht b (List.mem_cons_of_mem a hb)) hp.2⟩

theorem specFilter_cons2 (c d : Char) (rest : List Char) :
    specFilter (c :: d :: rest)
      = if c = '\\' ∧ d = '[' then '[' :: specFilter rest
        else if c = '\\' ∧ d = ']' then ']' :: specFilter rest
        else if issuesTok.isPrefixOf (c :: d :: rest) then
          specFilter ((c :: d :: rest).drop issuesTok.length)
        else c :: specFilter (d :: rest) := by
  simp only [specFilter]

theorem specFilter_cons_safe (c d : Char) (rest : List Char)
    (k1 : ¬(c = '\\' ∧ d = '[')) (k2 : ¬(c = '\\' ∧ d = ']'))
    (k3 : issuesTok.isPrefixOf (c :: d :: rest) = false) :
    specFilter (c :: d :: rest) = c :: specFilter (d :: rest) := by
  rw [specFilter_cons2, if_neg k1, if_neg k2, if_neg (by simp [k3])]

theorem specFilter_tok (z : List Char) :
    specFilter (issuesTok ++ z) = specFilter z := by
  have h1 : issuesTok.isPrefixOf (issuesTok ++ z) = true :=
    List.isPrefixOf_iff_prefix.mpr (List.prefix_append _ _)
  have h2 : (issuesTok ++ z).drop issuesTok.length = z := List.drop_left _ _
  rcases e : issuesTok ++ z with _ | ⟨c, rest⟩
  · simp [issuesTok] at e
  · rcases rest with _ | ⟨d, rest'⟩
    · exfalso
      have hlen := congrArg List.length e
      simp [issuesTok] at hlen
    · have hc : c = '#' := by
        have hh := congrArg List.head? e
        simpa [issuesTok] using hh.symm
      have hd : d = 'o' := by
        have hh := congrArg (fun l => l.tail.head?) e
        simpa [issuesTok] using hh.symm
      subst hc
      subst hd
      rw [specFilter_cons2, if_neg (by decide), if_neg (by decide), ← e, if_pos h1, h2]

theorem sed_spec_aux :
    ∀ (n : Nat) (l : List Char), l.length ≤ n → sub3 (sub2 (sub1 l)) = specFilter l := by
  intro n
  induction n with
  | zero =>
    intro l hl
    have hz : l = [] := List.length_eq_zero.mp (Nat.le_zero.mp hl)
    subst hz
    simp [sub1, sub2, sub3, specFilter]
  | succ n ih =>
    intro l hl
    cases l with
    | nil => simp [sub1, sub2, sub3, specFilter]
    | cons c rest =>
      cases rest with
      | nil =>
        have h3 : issuesTok.isPrefixOf [c] = false := by
          simp [issuesTok, List.isPrefixOf]
        rw [show sub1 [c] = [c] by simp [sub1], show sub2 [c] = [c] by simp [sub2],
          sub3_cons_safe c [] h3]
        simp [sub3, specFilter]
      | cons d y =>
        have hly : y.length ≤ n := by simp at hl; omega
        have hldy : (d :: y).length ≤ n := by simp at hl ⊢; omega
        by_cases h1 : c = '\\' ∧ d = '['
        · obtain ⟨rfl, rfl⟩ := h1
          rw [show sub1 ('\\' :: '[' :: y) = '[' :: sub1 y by simp [sub1]]
          rw [sub2_cons_safe '[' (sub1 y) (Or.inl (by decide))]
          rw [sub3_cons_safe '[' (sub2 (sub1 y)) (tok_not_prefix_of_ne _ _ (by decide))]
          rw [ih y hly]
          rw [show specFilter ('\\' :: '[' :: y) = '[' :: specFilter y by simp [specFilter]]
        · by_cases h2 : c = '\\' ∧ d = ']'
          · obtain ⟨rfl, rfl⟩ := h2
            rw [show sub1 ('\\' :: ']' :: y) = '\\' :: ']' :: sub1 y by
              rw [show sub1 ('\\' :: ']' :: y) = '\\' :: sub1 (']' :: y) by simp [sub1],
                sub1_cons_safe ']' y (Or.inl (by decide))]]
            rw [show sub2 ('\\' :: ']' :: sub1 y) = ']' :: sub2 (sub1 y) by simp [sub2]]
            rw [sub3_cons_safe ']' (sub2 (sub1 y)) (tok_not_prefix_of_ne _ _ (by decide))]
            rw [ih y hly]
            rw [show specFilter ('\\' :: ']' :: y) = ']' :: specFilter y by simp [specFilter]]
          · by_cases h3 : issuesTok.isPrefixOf (c :: d :: y) = true
            · obtain ⟨z, hz⟩ := List.isPrefixOf_iff_prefix.mp h3
              have hlz : z.length ≤ n := by
                have hlen := congrArg List.length hz
                simp [issuesTok] at hlen
                simp at hl
                omega
              rw [← hz]
              rw [sub1_append issuesTok z (by decide)]
              rw [sub2_append issuesTok (sub1 z) (by decide)]
              rw [sub3_tok, specFilter_tok, ih z hlz]
            · have hA : c ≠ '\\' ∨ (d :: y).head? ≠ some '[' := by
                by_cases hc : c = '\\'
                · right
                  simp only [List.head?_cons, ne_eq, Option.some.injEq]
                  intro hd
                  exact h1 ⟨hc, hd⟩
                · exact Or.inl hc
              have hB : c ≠ '\\' ∨ (sub1 (d :: y)).head? ≠ some ']' := by
                by_cases hc : c = '\\'
                · right
                  rcases sub1_head (d :: y) with hh | hh
                  · rw [hh]
                    simp only [List.head?_cons, ne_eq, Option.some.injEq]
                    intro hd
                    exact h2 ⟨hc, hd⟩
                  · rw [hh]
                    simp
                · exact Or.inl hc
              have hC : issuesTok.isPrefixOf (c :: sub2 (sub1 (d :: y))) = false := by
                by_cases hc : c = '#'
                · subst hc
                  rw [tok_prefix_hash]
                  cases hpp : issuesTok.tail.isPrefixOf (sub2 (sub1 (d :: y))) with
                  | false => rfl
                  | true =>
                    exfalso
                    have r2 := sub2_prefix_reflect (sub1 (d :: y)) issuesTok.tail
                      (by decide) hpp
                    have r1 := sub1_prefix_reflect (d :: y) issuesTok.tail (by decide) r2
                    apply h3
                    rw [tok_prefix_hash]
                    exact r1
                · exact tok_not_prefix_of_ne c _ hc
              rw [sub1_cons_safe c (d :: y) hA]
              rw [sub2_cons_safe c (sub1 (d :: y)) hB]
              rw [sub3_cons_safe c (sub2 (sub1 (d :: y))) hC]
              rw [ih (d :: y) hldy]
              rw [specFilter_cons_safe c d y h1 h2 (by rwa [Bool.not_eq_true] at h3)]

/-- C6: the Vault Converter's text-substitution filter (three sed
substitutions in sequence) behaves exactly as the spec's single-pass
description: every backslash-bracket sequence is un-escaped, every
occurrence of the literal token #org2mdissues# is removed, and all
other text is left unchanged; in particular
"a \[b\] #org2mdissues#c" maps to "a [b] c". -/
theorem claim6_vault_filter :
    (∀ l : List Char, sedFilter l = specFilter l)
    ∧ sedFilter "a \\[b\\] #org2mdissues#c".toList = "a [b] c".toList := by
  refine ⟨fun l => sed_spec_aux l.length l le_rfl, ?_⟩
  simp [sedFilter, sub1, sub2, sub3, issuesTok, List.isPrefixOf]

/-!
Helper lemmas about the capture pipeline's state.
-/

theorem fsUpdate_same (fs : FS) (p : List String) (v : Option (List Char)) :
    fsUpdate fs p v p = v := by simp [fsUpdate]

theorem fsUpdate_other (fs : FS) (p : List String) (v : Option (List Char))
    (q : List String) (h : q ≠ p) : fsUpdate fs p v q = fs q := by simp [fsUpdate, h]

theorem capture_success_state {Cfg : Type}
    (url title selection comment tag_str : Option String)
    (cp vp : List String) (tpl : String) (cfg : Option Cfg)
    (render : String → String → String → String → List (List Char) → String → Option Cfg → Except Err (List Char))
    (n : Nat) (out : List Char) (fs : FS) (org : List Char)
    (hr : render (safe url) (safe title) (safe selection) (safe comment)
      (tagsOf (safe tag_str).toList) tpl cfg = Except.ok org)
    (hne : cp ≠ mdPathOf vp (safe comment)) :
    capture url title selection comment tag_str cp vp tpl cfg render
      ⟨true, true, true, n, out, true, true⟩ fs
      = (fsUpdate (fsUpdate (fsUpdate (fsUpdate fs cp (some org))
          (mdPathOf vp (safe comment)) (some []))
          (mdPathOf vp (safe comment)) (some (sedFilter out))) cp none,
         none, some ⟨cp, "ok"⟩) := by
  simp only [capture, write_org, move_to_obsidian_vault, remove_org, hr]
  simp only [if_true, Bool.not_true, Bool.false_eq_true, if_false]
  rw [show (fsUpdate (fsUpdate (fsUpdate fs cp (some org))
        (mdPathOf vp (safe comment)) (some []))
        (mdPathOf vp (safe comment)) (some (sedFilter out))) cp = some org from by
      rw [fsUpdate_other _ _ _ _ hne, fsUpdate_other _ _ _ _ hne, fsUpdate_same]]

theorem capture_success_flags {Cfg : Type}
    (url title selection comment tag_str : Option String)
    (cp vp : List String) (tpl : String) (cfg : Option Cfg)
    (render : String → String → String → String → List (List Char) → String → Option Cfg → Except Err (List Char))
    (o : Oracle) (fs : FS)
    (hsucc : (capture url title selection comment tag_str cp vp tpl cfg render o fs).2.1 = none) :
    o.writeOk = true ∧ o.mkdirOk = true ∧ o.pandocLaunchOk = true
      ∧ o.openVaultOk = true ∧ o.sedLaunchOk = true
      ∧ ∃ org, render (safe url) (safe title) (safe selection) (safe comment)
          (tagsOf (safe tag_str).toList) tpl cfg = Except.ok org := by
  obtain ⟨w, mk, pl, n, out, sl, ov⟩ := o
  cases hrr : render (safe url) (safe title) (safe selection) (safe comment)
      (tagsOf (safe tag_str).toList) tpl cfg with
  | error e =>
    exfalso
    simp only [capture] at hsucc
    rw [hrr] at hsucc
    simp at hsucc
  | ok org =>
    cases w
    · exfalso
      simp only [capture] at hsucc
      rw [hrr] at hsucc
      simp [write_org] at hsucc
    · cases mk
      · exfalso
        simp only [capture] at hsucc
        rw [hrr] at hsucc
        simp [write_org, move_to_obsidian_vault] at hsucc
      · cases pl
        · exfalso
          simp only [capture] at hsucc
          rw [hrr] at hsucc
          simp [write_org, move_to_obsidian_vault] at hsucc
        · cases ov
          · exfalso
            simp only [capture] at hsucc
            rw [hrr] at hsucc
            simp [write_org, move_to_obsidian_vault] at hsucc
          · cases sl
            · exfalso
              simp only [capture] at hsucc
              rw [hrr] at hsucc
              simp [write_org, move_to_obsidian_vault] at hsucc
            · exact ⟨rfl, rfl, rfl, rfl, rfl, org, hrr ▸ rfl⟩

/-- C1: for every capture that runs to completion (no step raises),
starting from a filesystem with an empty vault directory and a
staging path distinct from the derived vault file path, afterwards
the staging file is gone and exactly one file exists under the vault
directory, namely the one at `<vaultPath>/<comment before first
dot>.md`, holding the filtered converter output. -/
theorem claim1_success_vault_state {Cfg : Type}
    (url title selection comment tag_str : Option String)
    (cp vp : List String) (tpl : String) (cfg : Option Cfg)
    (render : String → String → String → String → List (List Char) → String → Option Cfg → Except Err (List Char))
    (o : Oracle) (fs : FS)
    (hsucc : (capture url title selection comment tag_str cp vp tpl cfg render o fs).2.1 = none)
    (hvault : ∀ p, underVault vp p → fs p = none)
    (hne : cp ≠ mdPathOf vp (safe comment)) :
    (capture url title selection comment tag_str cp vp tpl cfg render o fs).1 cp = none
    ∧ underVault vp (mdPathOf vp (safe comment))
    ∧ (capture url title selection comment tag_str cp vp tpl cfg render o fs).1
        (mdPathOf vp (safe comment)) = some (sedFilter o.pandocOut)
    ∧ (∀ p, underVault vp p →
        (((capture url title selection comment tag_str cp vp tpl cfg render o fs).1 p).isSome
          ↔ p = mdPathOf vp (safe comment))) := by
  obtain ⟨w, mk, pl, n, out, sl, ov⟩ := o
  obtain ⟨hw, hmk, hpl, hov, hsl, org, hrr⟩ :=
    capture_success_flags url title selection comment tag_str cp vp tpl cfg render _ fs hsucc
  simp only at hw hmk hpl hov hsl
  subst hw
  subst hmk
  subst hpl
  subst hov
  subst hsl
  rw [capture_success_state url title selection comment tag_str cp vp tpl cfg render
    n out fs org hrr hne]
  dsimp only
  refine ⟨fsUpdate_same _ _ _, ⟨List.prefix_append _ _, ?_⟩, ?_, ?_⟩
  · intro he
    have hlen := congrArg List.length he
    simp [mdPathOf] at hlen
  · rw [fsUpdate_other _ _ _ _ (Ne.symm hne), fsUpdate_same]
  · intro p hp
    by_cases hpm : p = mdPathOf vp (safe comment)
    · subst hpm
      rw [fsUpdate_other _ _ _ _ (Ne.symm hne), fsUpdate_same]
      simp
    · constructor
      · intro hsome
        exfalso
        by_cases hpc : p = cp
        · subst hpc
          rw [fsUpdate_same] at hsome
          simp at hsome
        · rw [fsUpdate_other _ _ _ _ hpc, fsUpdate_other _ _ _ _ hpm,
            fsUpdate_other _ _ _ _ hpm, fsUpdate_other _ _ _ _ hpc,
            hvault p hp] at hsome
          simp at hsome
      · intro h
        exact absurd h hpm

/-- Witness for C1 at a concrete request: the success, empty-vault and
distinct-path hypotheses hold, and the conclusion follows. -/
theorem claim1_success_vault_state_witness :
    ((capture (some "http://x") (some "T") (some "S") (some "note.extra") (some "a,b")
        ["cap.org"] ["vault"] "" (none : Option Unit)
        (fun _ _ _ _ _ _ _ => Except.ok "body".toList)
        (Oracle.mk true true true 0 "out".toList true true) (fun _ => none)).2.1 = none)
    ∧ (∀ p, underVault ["vault"] p → (fun _ => (none : Option (List Char))) p = none)
    ∧ (["cap.org"] ≠ (mdPathOf ["vault"] (safe (some "note.extra"))))
    ∧ ((capture (some "http://x") (some "T") (some "S") (some "note.extra") (some "a,b")
        ["cap.org"] ["vault"] "" (none : Option Unit)
        (fun _ _ _ _ _ _ _ => Except.ok "body".toList)
        (Oracle.mk true true true 0 "out".toList true true) (fun _ => none)).1 ["cap.org"] = none
        ∧ underVault ["vault"] (mdPathOf ["vault"] (safe (some "note.extra")))
        ∧ (capture (some "http://x") (some "T") (some "S") (some "note.extra") (some "a,b")
        ["cap.org"] ["vault"] "" (none : Option Unit)
        (fun _ _ _ _ _ _ _ => Except.ok "body".toList)
        (Oracle.mk true true true 0 "out".toList true true) (fun _ => none)).1 (mdPathOf ["vault"] (safe (some "note.extra")))
            = some (sedFilter (Oracle.mk true true true 0 "out".toList true true).pandocOut)
        ∧ (∀ p, underVault ["vault"] p →
            (((capture (some "http://x") (some "T") (some "S") (some "note.extra") (some "a,b")
        ["cap.org"] ["vault"] "" (none : Option Unit)
        (fun _ _ _ _ _ _ _ => Except.ok "body".toList)
        (Oracle.mk true true true 0 "out".toList true true) (fun _ => none)).1 p).isSome ↔ p = (mdPathOf ["vault"] (safe (some "note.extra")))))) :=
  ⟨by rfl, fun p h => rfl, by decide,
    claim1_success_vault_state (some "http://x") (some "T") (some "S") (some "note.extra")
      (some "a,b") ["cap.org"] ["vault"] "" (none : Option Unit)
      (fun _ _ _ _ _ _ _ => Except.ok "body".toList)
      (Oracle.mk true true true 0 "out".toList true true) (fun _ => none)
      (by rfl) (fun p h => rfl) (by decide)⟩

/-- C8: every successful capture returns exactly
`{path: <stagingPath>, status: "ok"}` — the path field echoes the
staging path `capturePath`, not the vault file path. -/
theorem claim8_response {Cfg : Type}
    (url title selection comment tag_str : Option String)
    (cp vp : List String) (tpl : String) (cfg : Option Cfg)
    (render : String → String → String → String → List (List Char) → String → Option Cfg → Except Err (List Char))
    (o : Oracle) (fs : FS)
    (hsucc : (capture url title selection comment tag_str cp vp tpl cfg render o fs).2.1 = none) :
    (capture url title selection comment tag_str cp vp tpl cfg render o fs).2.2
      = some ⟨cp, "ok"⟩ := by
  obtain ⟨w, mk, pl, n, out, sl, ov⟩ := o
  obtain ⟨hw, hmk, hpl, hov, hsl, org, hrr⟩ :=
    capture_success_flags url title selection comment tag_str cp vp tpl cfg render _ fs hsucc
  simp only at hw hmk hpl hov hsl
  subst hw
  subst hmk
  subst hpl
  subst hov
  subst hsl
  simp only [capture]
  rw [hrr]
  simp only [write_org, move_to_obsidian_vault, remove_org, if_true, Bool.not_true,
    Bool.false_eq_true, if_false]
  by_cases hq : cp = mdPathOf vp (safe comment)
  · simp [fsUpdate, hq]
  · simp [fsUpdate, hq]

/-- Witness for C8 at a concrete request: the run succeeds and the
response carries the staging path with status ok. -/
theorem claim8_response_witness :
    ((capture (some "u") (some "T") (some "S") (some "note.extra") (some "a,b")
        ["cap.org"] ["vault"] "" (none : Option Unit)
        (fun _ _ _ _ _ _ _ => Except.ok "body".toList)
        (Oracle.mk true true true 0 "out".toList true true) (fun _ => none)).2.1 = none)
    ∧ ((capture (some "u") (some "T") (some "S") (some "note.extra") (some "a,b")
        ["cap.org"] ["vault"] "" (none : Option Unit)
        (fun _ _ _ _ _ _ _ => Except.ok "body".toList)
        (Oracle.mk true true true 0 "out".toList true true) (fun _ => none)).2.2
          = some ⟨["cap.org"], "ok"⟩) :=
  ⟨by rfl,
    claim8_response (some "u") (some "T") (some "S") (some "note.extra") (some "a,b")
      ["cap.org"] ["vault"] "" (none : Option Unit)
      (fun _ _ _ _ _ _ _ => Except.ok "body".toList)
      (Oracle.mk true true true 0 "out".toList true true) (fun _ => none) (by rfl)⟩

/-- C2 (amended): when step 5 succeeded and the Vault Converter step
fails, the error propagates, no response is produced, the staging
file still exists (Cleanup never runs), and the vault file is still
absent whenever the failure struck before the vault file was opened
(mkdir or pandoc launch or the open itself); when the failure is the
sed launch, after the vault file was opened, an empty vault file has
been created. -/
theorem claim2_convert_failure {Cfg : Type}
    (url title selection comment tag_str : Option String)
    (cp vp : List String) (tpl : String) (cfg : Option Cfg)
    (render : String → String → String → String → List (List Char) → String → Option Cfg → Except Err (List Char))
    (o : Oracle) (fs : FS) (org : List Char)
    (hrr : render (safe url) (safe title) (safe selection) (safe comment)
      (tagsOf (safe tag_str).toList) tpl cfg = Except.ok org)
    (hw : o.writeOk = true)
    (hfail : o.mkdirOk = false ∨ o.pandocLaunchOk = false ∨ o.openVaultOk = false
      ∨ o.sedLaunchOk = false)
    (hmd0 : fs (mdPathOf vp (safe comment)) = none)
    (hne : cp ≠ mdPathOf vp (safe comment)) :
    ((capture url title selection comment tag_str cp vp tpl cfg render o fs).2.1 ≠ none)
    ∧ (capture url title selection comment tag_str cp vp tpl cfg render o fs).2.2 = none
    ∧ (capture url title selection comment tag_str cp vp tpl cfg render o fs).1 cp = some org
    ∧ ((o.mkdirOk = false ∨ o.pandocLaunchOk = false ∨ o.openVaultOk = false) →
        (capture url title selection comment tag_str cp vp tpl cfg render o fs).1
          (mdPathOf vp (safe comment)) = none)
    ∧ (o.mkdirOk = true → o.pandocLaunchOk = true → o.openVaultOk = true →
        (capture url title selection comment tag_str cp vp tpl cfg render o fs).1
          (mdPathOf vp (safe comment)) = some []) := by
  obtain ⟨w, mk, pl, n, out, sl, ov⟩ := o
  replace hw : w = true := hw
  subst hw
  cases mk with
  | false =>
    simp only [capture]
    rw [hrr]
    simp only [write_org, move_to_obsidian_vault, remove_org, if_true, Bool.not_true,
      Bool.not_false, Bool.false_eq_true, Bool.true_eq_false, if_false]
    refine ⟨by simp, trivial, fsUpdate_same _ _ _, ?_, ?_⟩
    · intro _
      rw [fsUpdate_other _ _ _ _ (Ne.symm hne), hmd0]
    · intro hmk
      exact absurd hmk (by simp)
  | true =>
    cases pl with
    | false =>
      simp only [capture]
      rw [hrr]
      simp only [write_org, move_to_obsidian_vault, remove_org, if_true, Bool.not_true,
        Bool.not_false, Bool.false_eq_true, Bool.true_eq_false, if_false]
      refine ⟨by simp, trivial, fsUpdate_same _ _ _, ?_, ?_⟩
      · intro _
        rw [fsUpdate_other _ _ _ _ (Ne.symm hne), hmd0]
      · intro _ hpl
        exact absurd hpl (by simp)
    | true =>
      cases ov with
      | false =>
        simp only [capture]
        rw [hrr]
        simp only [write_org, move_to_obsidian_vault, remove_org, if_true, Bool.not_true,
          Bool.not_false, Bool.false_eq_true, Bool.true_eq_false, if_false]
        refine ⟨by simp, trivial, fsUpdate_same _ _ _, ?_, ?_⟩
        · intro _
          rw [fsUpdate_other _ _ _ _ (Ne.symm hne), hmd0]
        · intro _ _ hov
          exact absurd hov (by simp)
      | true =>
        cases sl with
        | false =>
          simp only [capture]
          rw [hrr]
          simp only [write_org, move_to_obsidian_vault, remove_org, if_true, Bool.not_true,
            Bool.not_false, Bool.false_eq_true, Bool.true_eq_false, if_false]
          refine ⟨by simp, trivial, ?_, ?_, ?_⟩
          · rw [fsUpdate_other _ _ _ _ hne, fsUpdate_same]
          · intro hbad
            rcases hbad with hbad | hbad | hbad <;> exact absurd hbad (by simp)
          · intro _ _ _
            exact fsUpdate_same _ _ _
        | true =>
          exfalso
          rcases hfail with hbad | hbad | hbad | hbad <;> simp at hbad

/-- Witness for C2 at a concrete request whose mkdir step fails: the
hypotheses hold and the conclusions follow. -/
theorem claim2_convert_failure_witness :
    ((capture (some "u") (some "T") (some "S") (some "note.extra") (some "a,b")
        ["cap.org"] ["vault"] "" (none : Option Unit)
        (fun _ _ _ _ _ _ _ => Except.ok "body".toList)
        (Oracle.mk true false true 0 "out".toList true true) (fun _ => none)).2.1 ≠ none)
    ∧ ((capture (some "u") (some "T") (some "S") (some "note.extra") (some "a,b")
        ["cap.org"] ["vault"] "" (none : Option Unit)
        (fun _ _ _ _ _ _ _ => Except.ok "body".toList)
        (Oracle.mk true false true 0 "out".toList true true) (fun _ => none)).2.2 = none)
    ∧ ((capture (some "u") (some "T") (some "S") (some "note.extra") (some "a,b")
        ["cap.org"] ["vault"] "" (none : Option Unit)
        (fun _ _ _ _ _ _ _ => Except.ok "body".toList)
        (Oracle.mk true false true 0 "out".toList true true) (fun _ => none)).1 ["cap.org"]
          = some "body".toList)
    ∧ ((capture (some "u") (some "T") (some "S") (some "note.extra") (some "a,b")
        ["cap.org"] ["vault"] "" (none : Option Unit)
        (fun _ _ _ _ _ _ _ => Except.ok "body".toList)
        (Oracle.mk true false true 0 "out".toList true true) (fun _ => none)).1
          (mdPathOf ["vault"] (safe (some "note.extra"))) = none) := by
  have h := claim2_convert_failure (some "u") (some "T") (some "S") (some "note.extra")
    (some "a,b") ["cap.org"] ["vault"] "" (none : Option Unit)
    (fun _ _ _ _ _ _ _ => Except.ok "body".toList)
    (Oracle.mk true false true 0 "out".toList true true) (fun _ => none) "body".toList
    rfl rfl (Or.inl rfl) rfl (by decide)
  exact ⟨h.1, h.2.1, h.2.2.1, h.2.2.2.1 (Or.inl rfl)⟩

/-- Counterexample to C2 as stated: with the request below, the Vault
Converter step fails at the sed launch (after `md_path.open('w')`
already created the vault file), the staging file still exists and
the error propagates, but the vault file DOES exist afterwards — as
an empty file — contradicting the claim that it does not. -/
theorem claim2_convert_failure_counterexample :
    ((capture (some "u") (some "T") (some "S") (some "note.extra") (some "a,b")
        ["cap.org"] ["vault"] "" (none : Option Unit)
        (fun _ _ _ _ _ _ _ => Except.ok "body".toList)
        (Oracle.mk true true true 0 "out".toList false true) (fun _ => none)).2.1
          = some Err.processError)
    ∧ ((capture (some "u") (some "T") (some "S") (some "note.extra") (some "a,b")
        ["cap.org"] ["vault"] "" (none : Option Unit)
        (fun _ _ _ _ _ _ _ => Except.ok "body".toList)
        (Oracle.mk true true true 0 "out".toList false true) (fun _ => none)).1 ["cap.org"]
          = some "body".toList)
    ∧ ((capture (some "u") (some "T") (some "S") (some "note.extra") (some "a,b")
        ["cap.org"] ["vault"] "" (none : Option Unit)
        (fun _ _ _ _ _ _ _ => Except.ok "body".toList)
        (Oracle.mk true true true 0 "out".toList false true) (fun _ => none)).1
          (mdPathOf ["vault"] (safe (some "note.extra"))) = some []) :=
  ⟨by rfl, by rfl, by rfl⟩

/-- C7 (amended): the converter's exit status is never examined — if
the processes launch, the directory creation and the vault-file open
succeed, `convert` completes for ANY exit status, writing the
filtered (possibly partial or empty) pandoc output to the vault
file; it surfaces an error exactly when directory creation fails, a
process cannot be launched, or the vault file cannot be opened for
the final write; and the result is entirely independent of the exit
status. -/
theorem claim7_convert_best_effort :
    (∀ (fs : FS) (md : List String) (o : Oracle),
        o.mkdirOk = true → o.pandocLaunchOk = true → o.openVaultOk = true →
        o.sedLaunchOk = true →
        (move_to_obsidian_vault fs md o).2 = none
        ∧ (move_to_obsidian_vault fs md o).1 md = some (sedFilter o.pandocOut))
    ∧ (∀ (fs : FS) (md : List String) (o : Oracle),
        (move_to_obsidian_vault fs md o).2 ≠ none
          ↔ (o.mkdirOk = false ∨ o.pandocLaunchOk = false ∨ o.openVaultOk = false
              ∨ o.sedLaunchOk = false))
    ∧ (∀ (fs : FS) (md : List String) (w mk pl sl ov : Bool) (out : List Char) (n1 n2 : Nat),
        move_to_obsidian_vault fs md (Oracle.mk w mk pl n1 out sl ov)
          = move_to_obsidian_vault fs md (Oracle.mk w mk pl n2 out sl ov)) := by
  refine ⟨?_, ?_, ?_⟩
  · intro fs md o hmk hpl hov hsl
    obtain ⟨w, mk, pl, n, out, sl, ov⟩ := o
    replace hmk : mk = true := hmk
    replace hpl : pl = true := hpl
    replace hov : ov = true := hov
    replace hsl : sl = true := hsl
    subst hmk
    subst hpl
    subst hov
    subst hsl
    constructor
    · simp [move_to_obsidian_vault]
    · simp only [move_to_obsidian_vault, Bool.not_true, Bool.false_eq_true, if_false]
      exact fsUpdate_same _ _ _
  · intro fs md o
    obtain ⟨w, mk, pl, n, out, sl, ov⟩ := o
    cases mk <;> cases pl <;> cases ov <;> cases sl <;>
      simp [move_to_obsidian_vault]
  · intro fs md w mk pl sl ov out n1 n2
    rfl

/-- Witness for C7: with pandoc launched and reporting exit status 5
(non-zero) but all launches, the mkdir and the open succeeding,
`convert` completes and writes the filtered output. -/
theorem claim7_convert_best_effort_witness :
    ((move_to_obsidian_vault (fun _ => none) ["vault", "f.md"]
        (Oracle.mk true true true 5 "x".toList true true)).2 = none)
    ∧ ((move_to_obsidian_vault (fun _ => none) ["vault", "f.md"]
        (Oracle.mk true true true 5 "x".toList true true)).1 ["vault", "f.md"]
          = some (sedFilter "x".toList)) :=
  claim7_convert_best_effort.1 (fun _ => none) ["vault", "f.md"]
    (Oracle.mk true true true 5 "x".toList true true) rfl rfl rfl rfl

/-- Counterexample to C7 as stated: directory creation fails while
both processes are launchable and the vault file could be opened, yet
`convert` surfaces an error — so "only a launch failure or a failing
final write is surfaced" is false on the code. -/
theorem claim7_convert_best_effort_counterexample :
    ((move_to_obsidian_vault (fun _ => none) ["vault", "f.md"]
        (Oracle.mk true false true 0 "x".toList true true)).2 = some Err.filesystemError)
    ∧ (Oracle.mk true false true 0 "x".toList true true).pandocLaunchOk = true
    ∧ (Oracle.mk true false true 0 "x".toList true true).sedLaunchOk = true
    ∧ (Oracle.mk true false true 0 "x".toList true true).openVaultOk = true :=
  ⟨by rfl, rfl, rfl, rfl⟩

/-- C9: the `lru_cache(1)` on `capture_config` makes the dynamic
configuration load happen at most once per process: with an empty
cache the body runs and its result is cached; with a filled cache
every later call returns the cached value and leaves the state
untouched, whatever the underlying config source (`load2`) would
now produce; in particular a second call after a first one reuses
the first call's result. -/
theorem claim9_config_cached :
    (∀ (Cfg : Type) (load2 : Unit → Option Cfg) (s : CacheState Cfg) (v : Option Cfg),
        s.cached = some v → capture_config load2 s = (v, s))
    ∧ (∀ (Cfg : Type) (load : Unit → Option Cfg),
        capture_config load ⟨none⟩ = (load (), ⟨some (load ())⟩))
    ∧ (∀ (Cfg : Type) (load1 load2 : Unit → Option Cfg),
        capture_config load2 (capture_config load1 ⟨none⟩).2
          = ((capture_config load1 ⟨none⟩).1, (capture_config load1 ⟨none⟩).2)) := by
  refine ⟨?_, fun Cfg load => rfl, fun Cfg load1 load2 => rfl⟩
  intro Cfg load2 s v h
  obtain ⟨c⟩ := s
  replace h : c = some v := h
  subst h
  rfl

/-- Witness for C9: a cache already holding `none` (a loaded "no
config") is returned as-is by a later call whose loader would now
produce a different value. -/
theorem claim9_config_cached_witness :
    (CacheState.mk (some none) : CacheState Unit).cached = some none
    ∧ capture_config (fun _ => some ()) (CacheState.mk (some none) : CacheState Unit)
        = (none, CacheState.mk (some none)) :=
  ⟨rfl, claim9_config_cached.1 Unit (fun _ => some ()) (CacheState.mk (some none)) none rfl⟩

/-- C5 (amended): a field that is present with a null value is turned
into the empty string by sanitization, which never raises (`safe` and
`tagsOf` are total); a payload with all optional fields null
dispatches into `capture` with those null values; but a payload from
which one of the optional keys (here `title`) is absent fails at the
`capture(**payload)` dispatch with a missing-argument `TypeError`
before sanitization runs. -/
theorem claim5_sanitize_null_fields :
    (safe none = "")
    ∧ (tagsOf (safe none).toList = [])
    ∧ (∀ (Cfg : Type) (u : Option String) (cp vp : List String) (tpl : String)
        (cfg : Option Cfg)
        (render : String → String → String → String → List (List Char) → String → Option Cfg → Except Err (List Char))
        (o : Oracle) (fs : FS),
        callCapture (Payload.mk (some u) (some none) (some none) (some none) (some none))
          cp vp tpl cfg render o fs
          = capture u none none none none cp vp tpl cfg render o fs)
    ∧ (∀ (Cfg : Type) (u sel com tg : Option (Option String))
        (cp vp : List String) (tpl : String) (cfg : Option Cfg)
        (render : String → String → String → String → List (List Char) → String → Option Cfg → Except Err (List Char))
        (o : Oracle) (fs : FS),
        (callCapture (Payload.mk u none sel com tg) cp vp tpl cfg render o fs).2.1
          = some Err.typeError) := by
  refine ⟨rfl, rfl, fun Cfg u cp vp tpl cfg render o fs => rfl, ?_⟩
  intro Cfg u sel com tg cp vp tpl cfg render o fs
  cases u <;> rfl

/-- Counterexample to C5 as stated: a request whose `title` key is
absent is NOT sanitized to the empty string — the call raises a
missing-argument `TypeError` at dispatch (surfaced as a 500), no
response is produced, and the pipeline never runs. -/
theorem claim5_sanitize_null_fields_counterexample :
    ((callCapture (Payload.mk (some (some "u")) none (some none) (some none) (some none))
        ["cap.org"] ["vault"] "" (none : Option Unit)
        (fun _ _ _ _ _ _ _ => Except.ok []) (Oracle.mk true true true 0 [] true true)
        (fun _ => none)).2.1 = some Err.typeError)
    ∧ ((callCapture (Payload.mk (some (some "u")) none (some none) (some none) (some none))
        ["cap.org"] ["vault"] "" (none : Option Unit)
        (fun _ _ _ _ _ _ _ => Except.ok []) (Oracle.mk true true true 0 [] true true)
        (fun _ => none)).2.2 = none)
    ∧ ((callCapture (Payload.mk (some (some "u")) none (some none) (some none) (some none))
        ["cap.org"] ["vault"] "" (none : Option Unit)
        (fun _ _ _ _ _ _ _ => Except.ok []) (Oracle.mk true true true 0 [] true true)
        (fun _ => none)).1 ["cap.org"] = none) :=
  ⟨rfl, rfl, rfl⟩

/-- C10 (amended): a null `url` is not rejected anywhere — it is
sanitized to the empty string, so a capture with a null url behaves
exactly like one with an empty-string url, reaches the Renderer, and
succeeds outright when the Renderer and the environment cooperate
(any failure with a null url can only come from the pipeline's own
steps, not from any url validation); a payload missing the `url` key
entirely, however, fails at dispatch with a missing-argument
`TypeError` before the pipeline runs. -/
theorem claim10_url_not_validated :
    (∀ (Cfg : Type) (title selection comment tag_str : Option String)
        (cp vp : List String) (tpl : String) (cfg : Option Cfg)
        (render : String → String → String → String → List (List Char) → String → Option Cfg → Except Err (List Char))
        (o : Oracle) (fs : FS),
        capture none title selection comment tag_str cp vp tpl cfg render o fs
          = capture (some "") title selection comment tag_str cp vp tpl cfg render o fs)
    ∧ (∀ (Cfg : Type) (t s c g : Option String)
        (cp vp : List String) (tpl : String) (cfg : Option Cfg)
        (render : String → String → String → String → List (List Char) → String → Option Cfg → Except Err (List Char))
        (o : Oracle) (fs : FS),
        callCapture (Payload.mk (some none) (some t) (some s) (some c) (some g))
          cp vp tpl cfg render o fs
          = capture none t s c g cp vp tpl cfg render o fs)
    ∧ (∀ (Cfg : Type) (t s c g : Option String)
        (cp vp : List String) (tpl : String) (cfg : Option Cfg)
        (orgOut out : List Char) (n : Nat) (fs : FS),
        (capture none t s c g cp vp tpl cfg
          (fun _ _ _ _ _ _ _ => Except.ok orgOut)
          (Oracle.mk true true true n out true true) fs).2.1 = none) := by
  refine ⟨fun Cfg t s c g cp vp tpl cfg render o fs => rfl,
    fun Cfg t s c g cp vp tpl cfg render o fs => rfl, ?_⟩
  intro Cfg t s c g cp vp tpl cfg orgOut out n fs
  simp only [capture]
  simp only [write_org, move_to_obsidian_vault, remove_org, if_true, Bool.not_true,
    Bool.false_eq_true, if_false]
  by_cases hq : cp = mdPathOf vp (safe c)
  · simp [fsUpdate, hq]
  · simp [fsUpdate, hq]

/-- Counterexample to C10 as stated: a request whose `url` key is
absent does not propagate into the pipeline — even with a Renderer
that succeeds and a fully cooperative environment the call fails at
dispatch with a missing-argument `TypeError`, no staging write
happens, and the Renderer is never reached. -/
theorem claim10_url_not_validated_counterexample :
    ((callCapture (Payload.mk none (some (some "T")) (some (some "S")) (some (some "c"))
        (some (some "a")))
        ["cap.org"] ["vault"] "" (none : Option Unit)
        (fun _ _ _ _ _ _ _ => Except.ok "body".toList)
        (Oracle.mk true true true 0 [] true true) (fun _ => none)).2.1 = some Err.typeError)
    ∧ ((callCapture (Payload.mk none (some (some "T")) (some (some "S")) (some (some "c"))
        (some (some "a")))
        ["cap.org"] ["vault"] "" (none : Option Unit)
        (fun _ _ _ _ _ _ _ => Except.ok "body".toList)
        (Oracle.mk true true true 0 [] true true) (fun _ => none)).2.2 = none)
    ∧ ((callCapture (Payload.mk none (some (some "T")) (some (some "S")) (some (some "c"))
        (some (some "a")))
        ["cap.org"] ["vault"] "" (none : Option Unit)
        (fun _ _ _ _ _ _ _ => Except.ok "body".toList)
        (Oracle.mk true true true 0 [] true true) (fun _ => none)).1 ["cap.org"] = none) :=
  ⟨rfl, rfl, rfl⟩
